import Mathlib

/-!
Verification of the CloakBet contract (contracts/CloakBet.sol).

The contract is embedded shallowly: encrypted integers (`euint8`, `euint64`,
`ebool`) are modelled by their plaintext semantics (`Nat` with explicit
wrap-around where the FHE operation wraps, `Bool` for encrypted booleans),
since every FHE operation used by the contract (`add`, `rem`, `div`, `and`,
`or`, `shl`, `shr`, `rotr`, `eq`, `gt`, `select`, `randEuint8`) is a pure
function of the underlying plaintexts.  Randomness (`FHE.randEuint8(64)`,
a uniform value in `0..63`) is modelled by an explicit `Nat` parameter
reduced mod 64.  Reverts are modelled by `Except`: an error result carries
no state, so a reverted call leaves the pre-state untouched by construction.
-/

namespace CloakBet

/-- `HAND_SIZE` constant of the contract. -/
def HAND_SIZE : Nat := 6

/-- `DECK_SIZE` constant of the contract. -/
def DECK_SIZE : Nat := 52

/-- `RANKS` constant of the contract. -/
def RANKS : Nat := 13

/-- `_DUMMY_USED_MASK` constant of the contract: bits 52..63 set to 1. -/
def DUMMY_USED_MASK : Nat := 0xFFF0000000000000

/-- Plaintext semantics of `FHE.rotr` on a `euint64` with a `euint8` rotation
amount: rotate right by `s mod 64` on 64 bits. -/
def rotr64 (x s : Nat) : Nat :=
  let s := s % 64
  ((x >>> s) ||| (x <<< (64 - s))) % 2 ^ 64

/-- `_skipIfLowerFull` of the contract: if the low `bits` bits of `mask` are
all ones (`= ones`), shift the mask down by `bits` and add `bits` to the
running index, else leave both unchanged.  The contract's encrypted
`FHE.select` is modelled by a plain conditional on the plaintext condition. -/
def skipIfLowerFull (mask idx bits ones : Nat) : Nat × Nat :=
  let lower := mask &&& ones
  if lower = ones then (mask >>> bits, idx + bits) else (mask, idx)

/-- `_firstZeroBitIndex` of the contract: oblivious binary search for the
least-significant zero bit of a 64-bit mask. -/
def firstZeroBitIndex (mask : Nat) : Nat :=
  let p := skipIfLowerFull mask 0 32 0xFFFFFFFF
  let p := skipIfLowerFull p.1 p.2 16 0xFFFF
  let p := skipIfLowerFull p.1 p.2 8 0xFF
  let p := skipIfLowerFull p.1 p.2 4 0xF
  let p := skipIfLowerFull p.1 p.2 2 0x3
  if p.1 &&& 1 = 1 then p.2 + 1 else p.2

/-- `_drawUniqueCard` of the contract.  `r` models the output of
`FHE.randEuint8(64)`, a uniform random value in `0..63`; an arbitrary `Nat`
is reduced mod 64 to reflect that range.  Returns the drawn card index and
the updated used-mask. -/
def drawUniqueCard (usedMask r : Nat) : Nat × Nat :=
  let start := r % 64
  let maskWithDummies := usedMask ||| DUMMY_USED_MASK
  let rotated := rotr64 maskWithDummies start
  let pos := firstZeroBitIndex rotated
  let card64 := (pos + start) % 2 ^ 8
  let card := card64 &&& 63
  let bit := (1 <<< (card % 64)) % 2 ^ 64
  (card, usedMask ||| bit)

/-- The encrypted comparison computed by `_finishGame`:
`rankGt OR (rankEq AND suitGt)` with `rank = card rem RANKS`,
`suit = card div RANKS` (plaintext semantics of the FHE circuit). -/
def p0WinsRule (c0 c1 : Nat) : Bool :=
  let r0 := c0 % RANKS
  let r1 := c1 % RANKS
  let s0 := c0 / RANKS
  let s1 := c1 / RANKS
  (decide (r1 < r0) || (decide (r0 = r1) && decide (s1 < s0)))

/-- The plaintext rule as the spec states it (§4.3):
`p0Wins = (rank0 > rank1) OR (rank0 == rank1 AND suit0 > suit1)` with
`rank = card mod 13`, `suit = card div 13`. -/
def specPlainRule (a b : Nat) : Bool :=
  (decide (a % 13 > b % 13) || (decide (a % 13 = b % 13) && decide (a / 13 > b / 13)))

/-- Error taxonomy of the contract (one constructor per `error` declaration
that a modelled function can revert with). -/
inductive Err where
  | GameNotFound
  | GameNotOpen
  | GameFull
  | GameNotReady
  | GameAlreadyStarted
  | GameAlreadyFinished
  | HandsNotDealt
  | HandsAlreadyDealt
  | NotAPlayer
  | AlreadyPlayed
  | InvalidHandIndex
  deriving DecidableEq, Repr

/-- The `Game` struct.  Addresses are `Nat` (0 plays the role of
`address(0)`).  Encrypted hands are lists of plaintext card values of length
`HAND_SIZE`; `p0Wins` is `none` while the result handle has never been
written (the `_finishGame` assignment is the only write). -/
structure Game where
  player0 : Nat
  player1 : Nat
  started : Bool
  finished : Bool
  createdAt : Nat
  usedMask : Nat
  dealIndex : Nat
  hand0 : List Nat
  hand1 : List Nat
  playedIndex0 : Nat
  playedIndex1 : Nat
  hasPlayed0 : Bool
  hasPlayed1 : Bool
  p0Wins : Option Bool
  deriving DecidableEq, Repr

/-- The zero-initialized `Game` that a fresh mapping slot holds. -/
def emptyGame : Game where
  player0 := 0
  player1 := 0
  started := false
  finished := false
  createdAt := 0
  usedMask := 0
  dealIndex := 0
  hand0 := List.replicate HAND_SIZE 0
  hand1 := List.replicate HAND_SIZE 0
  playedIndex0 := 0
  playedIndex1 := 0
  hasPlayed0 := false
  hasPlayed1 := false
  p0Wins := none

/-- Contract-level storage: `nextGameId`, the `_games` mapping, the
`_openGameIds` array and the `_openIndexPlusOne` mapping. -/
structure CBState where
  nextGameId : Nat
  games : Nat → Game
  openGameIds : List Nat
  openIndexPlusOne : Nat → Nat

/-- Write one game back into the `_games` mapping. -/
def setGame (st : CBState) (gameId : Nat) (g : Game) : CBState :=
  { st with games := fun j => if j = gameId then g else st.games j }

/-- `_pushOpen` of the contract. -/
def pushOpen (st : CBState) (gameId : Nat) : CBState :=
  { st with
    openIndexPlusOne := fun j =>
      if j = gameId then st.openGameIds.length + 1 else st.openIndexPlusOne j
    openGameIds := st.openGameIds ++ [gameId] }

/-- `_removeOpen` of the contract: swap-with-last then pop; a `gameId` with
no recorded index (`_openIndexPlusOne = 0`) is a no-op. -/
def removeOpen (st : CBState) (gameId : Nat) : CBState :=
  let idxPlusOne := st.openIndexPlusOne gameId
  if idxPlusOne = 0 then st
  else
    let idx := idxPlusOne - 1
    let lastIdx := st.openGameIds.length - 1
    let step :=
      if idx ≠ lastIdx then
        let moved := st.openGameIds.getD lastIdx 0
        (st.openGameIds.set idx moved,
         fun j => if j = moved then idx + 1 else st.openIndexPlusOne j)
      else (st.openGameIds, st.openIndexPlusOne)
    { st with
      openGameIds := step.1.dropLast
      openIndexPlusOne := fun j => if j = gameId then 0 else step.2 j }

/-- `createGame` of the contract: allocates the next id, records the creator
in slot 0 and the timestamp, and indexes the game as open.  Never reverts. -/
def createGame (sender timestamp : Nat) (st : CBState) : Nat × CBState :=
  let gameId := st.nextGameId
  let g := st.games gameId
  let g := { g with player0 := sender, createdAt := timestamp }
  let st := { st with nextGameId := st.nextGameId + 1 }
  (gameId, pushOpen (setGame st gameId g) gameId)

/-- `joinGame` of the contract, guards in source order (`_getGame` first). -/
def joinGame (sender gameId : Nat) (st : CBState) : Except Err CBState :=
  let g := st.games gameId
  if g.player0 = 0 then .error .GameNotFound
  else if g.started then .error .GameAlreadyStarted
  else if g.player1 ≠ 0 then .error .GameFull
  else if g.player0 = sender then .error .GameNotOpen
  else .ok (removeOpen (setGame st gameId { g with player1 := sender }) gameId)

/-- `startGame` of the contract. -/
def startGame (sender gameId : Nat) (st : CBState) : Except Err CBState :=
  let g := st.games gameId
  if g.player0 = 0 then .error .GameNotFound
  else if g.started then .error .GameAlreadyStarted
  else if g.player1 = 0 then .error .GameNotReady
  else if sender ≠ g.player0 ∧ sender ≠ g.player1 then .error .NotAPlayer
  else .ok (setGame st gameId { g with started := true, dealIndex := 0, usedMask := 0 })

/-- The state update performed by a successful `dealRound` on one game:
draw one card per player against the same evolving mask, write both at
index `dealIndex`, store the final mask and increment `dealIndex`.
`r0`, `r1` model the two `FHE.randEuint8(64)` outputs. -/
def dealStep (g : Game) (r0 r1 : Nat) : Game :=
  let i := g.dealIndex
  let d0 := drawUniqueCard g.usedMask r0
  let d1 := drawUniqueCard d0.2 r1
  { g with
    hand0 := g.hand0.set i d0.1
    hand1 := g.hand1.set i d1.1
    usedMask := d1.2
    dealIndex := i + 1 }

/-- `dealRound` of the contract, guards in source order. -/
def dealRound (sender gameId r0 r1 : Nat) (st : CBState) : Except Err CBState :=
  let g := st.games gameId
  if g.player0 = 0 then .error .GameNotFound
  else if ¬g.started then .error .GameNotReady
  else if g.finished then .error .GameAlreadyFinished
  else if HAND_SIZE ≤ g.dealIndex then .error .HandsAlreadyDealt
  else if sender ≠ g.player0 ∧ sender ≠ g.player1 then .error .NotAPlayer
  else .ok (setGame st gameId (dealStep g r0 r1))

/-- `_finishGame` of the contract: compare the two played cards and set the
result and the `finished` flag. -/
def finishGame (g : Game) : Game :=
  let c0 := g.hand0.getD g.playedIndex0 0
  let c1 := g.hand1.getD g.playedIndex1 0
  { g with p0Wins := some (p0WinsRule c0 c1), finished := true }

/-- The game update of a successful `playCard` by slot 0: record the play and
run `_finishGame` when both slots have now played. -/
def playResult0 (g : Game) (handIndex : Nat) : Game :=
  let g := { g with hasPlayed0 := true, playedIndex0 := handIndex }
  if g.hasPlayed0 && g.hasPlayed1 then finishGame g else g

/-- The game update of a successful `playCard` by slot 1. -/
def playResult1 (g : Game) (handIndex : Nat) : Game :=
  let g := { g with hasPlayed1 := true, playedIndex1 := handIndex }
  if g.hasPlayed0 && g.hasPlayed1 then finishGame g else g

/-- `playCard` of the contract, guards in source order; when the second slot
plays, `_finishGame` runs in the same call. -/
def playCard (sender gameId handIndex : Nat) (st : CBState) : Except Err CBState :=
  let g := st.games gameId
  if g.player0 = 0 then .error .GameNotFound
  else if ¬g.started then .error .GameNotReady
  else if g.finished then .error .GameAlreadyFinished
  else if g.dealIndex < HAND_SIZE then .error .HandsNotDealt
  else if HAND_SIZE ≤ handIndex then .error .InvalidHandIndex
  else if sender ≠ g.player0 ∧ sender ≠ g.player1 then .error .NotAPlayer
  else if sender = g.player0 then
    if g.hasPlayed0 then .error .AlreadyPlayed
    else .ok (setGame st gameId (playResult0 g handIndex))
  else
    if g.hasPlayed1 then .error .AlreadyPlayed
    else .ok (setGame st gameId (playResult1 g handIndex))

/-- `getHand` of the contract (view). -/
def getHand (gameId player : Nat) (st : CBState) : Except Err (List Nat) :=
  let g := st.games gameId
  if g.player0 = 0 then .error .GameNotFound
  else if player = g.player0 then .ok g.hand0
  else if player = g.player1 then .ok g.hand1
  else .error .NotAPlayer

/-- Iterated `dealRound` with one `(r0, r1)` randomness pair per call;
stops at the first revert. -/
def dealRounds (sender gameId : Nat) (rs : List (Nat × Nat)) (st : CBState) :
    Except Err CBState :=
  match rs with
  | [] => .ok st
  | r :: rest =>
    match dealRound sender gameId r.1 r.2 st with
    | .error e => .error e
    | .ok st1 => dealRounds sender gameId rest st1

/-- The card values dealt so far in a game: the first `dealIndex` entries of
each hand. -/
def dealtCards (g : Game) : List Nat :=
  g.hand0.take g.dealIndex ++ g.hand1.take g.dealIndex

/-- Invariant tying the used-mask to the cards dealt so far: hands have their
declared fixed size, at most `HAND_SIZE` rounds were dealt, the mask fits in
64 bits, every dealt card is a deck value, no card was dealt twice, and the
mask's set bits are exactly the dealt cards. -/
def DealInv (g : Game) : Prop :=
  g.hand0.length = HAND_SIZE ∧
  g.hand1.length = HAND_SIZE ∧
  g.dealIndex ≤ HAND_SIZE ∧
  g.usedMask < 2 ^ 64 ∧
  (∀ c, c ∈ dealtCards g → c < 52) ∧
  (dealtCards g).Nodup ∧
  (∀ i, g.usedMask.testBit i = true ↔ i ∈ dealtCards g)

/-- Every natural number has a zero bit (it is finite). -/
def leastZeroBit_exists (m : Nat) : ∃ i, m.testBit i = false :=
  ⟨m, Nat.testBit_lt_two_pow (Nat.lt_two_pow m)⟩

/-- Position of the least-significant zero bit of a natural number. -/
def leastZeroBit (m : Nat) : Nat :=
  Nat.find (leastZeroBit_exists m)

/-- Consistency of the open-game index for one id `j`: the open list has no
duplicates, an id with no recorded index is not in the list, and a recorded
index points at `j` inside the list. -/
def openConsistentAt (st : CBState) (j : Nat) : Prop :=
  st.openGameIds.Nodup ∧
  (st.openIndexPlusOne j = 0 → j ∉ st.openGameIds) ∧
  (st.openIndexPlusOne j ≠ 0 →
    st.openIndexPlusOne j - 1 < st.openGameIds.length ∧
    st.openGameIds.getD (st.openIndexPlusOne j - 1) 0 = j)

/-! Concrete states used to instantiate the theorems: player `1` creates game
`0`, player `2` joins, player `1` starts, both hands are dealt in six rounds,
then both players play. -/

/-- The all-empty contract state. -/
def stW0 : CBState where
  nextGameId := 0
  games := fun _ => emptyGame
  openGameIds := []
  openIndexPlusOne := fun _ => 0

/-- After `createGame` by player 1 at timestamp 100. -/
def stW1 : CBState := (createGame 1 100 stW0).2

/-- After player 2 joins game 0. -/
def stW2 : CBState :=
  match joinGame 2 0 stW1 with
  | .ok s => s
  | .error _ => stW1

/-- After player 1 starts game 0. -/
def stW3 : CBState :=
  match startGame 1 0 stW2 with
  | .ok s => s
  | .error _ => stW2

/-- Randomness used for the six deal rounds. -/
def rsW : List (Nat × Nat) := [(0, 0), (1, 1), (2, 2), (3, 3), (4, 4), (5, 5)]

/-- After the six deal rounds. -/
def stW4 : CBState :=
  match dealRounds 1 0 rsW stW3 with
  | .ok s => s
  | .error _ => stW3

/-- After one deal round (used for the `dealIndex` increment instance). -/
def stD1 : CBState :=
  match dealRound 1 0 0 0 stW3 with
  | .ok s => s
  | .error _ => stW3

/-- After player 1 plays hand index 0. -/
def stW5 : CBState :=
  match playCard 1 0 0 stW4 with
  | .ok s => s
  | .error _ => stW4

/-- After player 2 plays hand index 1: the game is finished. -/
def stW6 : CBState :=
  match playCard 2 0 1 stW5 with
  | .ok s => s
  | .error _ => stW5

/-- A concrete game holding cards 5 and 3 at the played slots. -/
def gW : Game :=
  { emptyGame with
    hand0 := [5, 0, 0, 0, 0, 0]
    hand1 := [3, 0, 0, 0, 0, 0]
    playedIndex0 := 0
    playedIndex1 := 0 }

/-! ### Properties of the bit-level helpers -/

theorem leastZeroBit_testBit (m : Nat) : m.testBit (leastZeroBit m) = false :=
  Nat.find_spec (leastZeroBit_exists m)

theorem leastZeroBit_le {m j : Nat} (h : m.testBit j = false) :
    leastZeroBit m ≤ j :=
  Nat.find_min' (leastZeroBit_exists m) h

theorem leastZeroBit_min (m : Nat) {j : Nat} (h : j < leastZeroBit m) :
    m.testBit j = true := by
  by_contra hb
  have hb' : m.testBit j = false := by simpa using hb
  exact Nat.not_le.2 h (leastZeroBit_le hb')

theorem leastZeroBit_eq {m p : Nat} (h0 : m.testBit p = false)
    (h1 : ∀ j, j < p → m.testBit j = true) : leastZeroBit m = p := by
  unfold leastZeroBit
  rw [Nat.find_eq_iff]
  exact ⟨h0, fun j hj => by simp [h1 j hj]⟩

theorem land_ones_eq_iff (m bits : Nat) :
    m &&& (2 ^ bits - 1) = 2 ^ bits - 1 ↔ ∀ j, j < bits → m.testBit j = true := by
  constructor
  · intro h j hj
    have h' := congrArg (fun x => x.testBit j) h
    simpa [Nat.testBit_land, hj] using h'
  · intro h
    apply Nat.eq_of_testBit_eq
    intro i
    by_cases hi : i < bits
    · simp [Nat.testBit_land, hi, h i hi]
    · simp [Nat.testBit_land, hi]

theorem skipIfLowerFull_spec (m idx bits ones : Nat)
    (hones : ones = 2 ^ bits - 1) (h : leastZeroBit m < 2 * bits) :
    (skipIfLowerFull m idx bits ones).2 +
      leastZeroBit (skipIfLowerFull m idx bits ones).1 = idx + leastZeroBit m ∧
    leastZeroBit (skipIfLowerFull m idx bits ones).1 < bits := by
  subst hones
  simp only [skipIfLowerFull]
  by_cases hfull : m &&& (2 ^ bits - 1) = 2 ^ bits - 1
  · have hall : ∀ j, j < bits → m.testBit j = true := (land_ones_eq_iff m bits).1 hfull
    have hge : bits ≤ leastZeroBit m := by
      by_contra hlt
      have hbit := hall _ (Nat.lt_of_not_le hlt)
      rw [leastZeroBit_testBit] at hbit
      exact Bool.noConfusion hbit
    have hshift : leastZeroBit (m >>> bits) = leastZeroBit m - bits := by
      apply leastZeroBit_eq
      · rw [Nat.testBit_shiftRight]
        have heq : bits + (leastZeroBit m - bits) = leastZeroBit m := by omega
        rw [heq]
        exact leastZeroBit_testBit m
      · intro j hj
        rw [Nat.testBit_shiftRight]
        exact leastZeroBit_min m (by omega)
    rw [if_pos hfull]
    constructor
    · show idx + bits + leastZeroBit (m >>> bits) = idx + leastZeroBit m
      rw [hshift]; omega
    · show leastZeroBit (m >>> bits) < bits
      rw [hshift]; omega
  · have hlt : leastZeroBit m < bits := by
      have hnot : ¬∀ j, j < bits → m.testBit j = true :=
        fun hc => hfull ((land_ones_eq_iff m bits).2 hc)
      push_neg at hnot
      obtain ⟨j, hj, hbit⟩ := hnot
      have hbit' : m.testBit j = false := by simpa using hbit
      exact Nat.lt_of_le_of_lt (leastZeroBit_le hbit') hj
    rw [if_neg hfull]
    exact ⟨rfl, hlt⟩

theorem firstZeroBitIndex_eq_leastZeroBit (m : Nat) (h : leastZeroBit m < 64) :
    firstZeroBitIndex m = leastZeroBit m := by
  simp only [firstZeroBitIndex]
  have s1 := skipIfLowerFull_spec m 0 32 0xFFFFFFFF (by norm_num) (by omega)
  generalize hq1 : skipIfLowerFull m 0 32 0xFFFFFFFF = q1 at s1 ⊢
  have s2 := skipIfLowerFull_spec q1.1 q1.2 16 0xFFFF (by norm_num) (by omega)
  generalize hq2 : skipIfLowerFull q1.1 q1.2 16 0xFFFF = q2 at s2 ⊢
  have s3 := skipIfLowerFull_spec q2.1 q2.2 8 0xFF (by norm_num) (by omega)
  generalize hq3 : skipIfLowerFull q2.1 q2.2 8 0xFF = q3 at s3 ⊢
  have s4 := skipIfLowerFull_spec q3.1 q3.2 4 0xF (by norm_num) (by omega)
  generalize hq4 : skipIfLowerFull q3.1 q3.2 4 0xF = q4 at s4 ⊢
  have s5 := skipIfLowerFull_spec q4.1 q4.2 2 0x3 (by norm_num) (by omega)
  generalize hq5 : skipIfLowerFull q4.1 q4.2 2 0x3 = q5 at s5 ⊢
  by_cases hbit : q5.1 &&& 1 = 1
  · have hmod : q5.1 % 2 = 1 := by rwa [Nat.and_one_is_mod] at hbit
    have htb : q5.1.testBit 0 = true := by simp [Nat.testBit_zero, hmod]
    have hne : leastZeroBit q5.1 ≠ 0 := by
      intro hzero
      have hcontra := leastZeroBit_testBit q5.1
      rw [hzero, htb] at hcontra
      exact Bool.noConfusion hcontra
    rw [if_pos hbit]
    omega
  · have hmod : q5.1 % 2 = 0 := by
      rw [Nat.and_one_is_mod] at hbit
      omega
    have htb : q5.1.testBit 0 = false := by simp [Nat.testBit_zero, hmod]
    have hzero : leastZeroBit q5.1 = 0 := leastZeroBit_eq htb (by omega)
    rw [if_neg hbit]
    omega

theorem rotr64_lt (x s : Nat) : rotr64 x s < 2 ^ 64 := by
  unfold rotr64
  exact Nat.mod_lt _ (by norm_num)

theorem rotr64_testBit (x s j : Nat) (hx : x < 2 ^ 64) (hs : s < 64) (hj : j < 64) :
    (rotr64 x s).testBit j = x.testBit ((j + s) % 64) := by
  unfold rotr64
  have hs64 : s % 64 = s := Nat.mod_eq_of_lt hs
  rw [hs64]
  rw [Nat.testBit_mod_two_pow, Nat.testBit_lor, Nat.testBit_shiftRight,
    Nat.testBit_shiftLeft]
  by_cases hcase : j + s < 64
  · have h1 : (j + s) % 64 = j + s := Nat.mod_eq_of_lt hcase
    have h2 : ¬(j ≥ 64 - s) := by omega
    simp [hj, h2, h1, Nat.add_comm s j]
  · have h1 : (j + s) % 64 = j + s - 64 := by
      rw [Nat.mod_eq_sub_mod (by omega), Nat.mod_eq_of_lt (by omega)]
    have h2 : j ≥ 64 - s := by omega
    have h3 : x.testBit (s + j) = false := by
      apply Nat.testBit_lt_two_pow
      calc x < 2 ^ 64 := hx
        _ ≤ 2 ^ (s + j) := Nat.pow_le_pow_right (by norm_num) (by omega)
    have h4 : j - (64 - s) = j + s - 64 := by omega
    simp [hj, h2, h3, h1, h4]

theorem land63_eq_mod (x : Nat) : x &&& 63 = x % 64 := by
  apply Nat.eq_of_testBit_eq
  intro i
  have h63 : (63 : Nat) = 2 ^ 6 - 1 := by norm_num
  have h64 : (64 : Nat) = 2 ^ 6 := by norm_num
  rw [h63, h64, Nat.testBit_land, Nat.testBit_two_pow_sub_one, Nat.testBit_mod_two_pow,
    Bool.and_comm]

theorem dummy_testBit_low : ∀ i, i < 52 → DUMMY_USED_MASK.testBit i = false := by decide

theorem dummy_testBit_high : ∀ i, i < 64 → 52 ≤ i → DUMMY_USED_MASK.testBit i = true := by
  decide

theorem dummy_lt : DUMMY_USED_MASK < 2 ^ 64 := by norm_num [DUMMY_USED_MASK]

/-- Full functional specification of one `_drawUniqueCard` call: if the mask
fits in 64 bits and some card slot `0..51` is still free, the drawn card is a
free slot `< 52`, the new mask is the old one with exactly that bit added,
and the card is `(zero-bit-position of the rotated mask + start) mod 64`. -/
theorem drawUniqueCard_spec (mask r : Nat) (hm : mask < 2 ^ 64)
    (hz : ∃ i, i < 52 ∧ mask.testBit i = false) :
    (drawUniqueCard mask r).1 < 52 ∧
    mask.testBit (drawUniqueCard mask r).1 = false ∧
    (drawUniqueCard mask r).2 = mask ||| 2 ^ (drawUniqueCard mask r).1 ∧
    (drawUniqueCard mask r).1 =
      (firstZeroBitIndex (rotr64 (mask ||| DUMMY_USED_MASK) (r % 64)) + r % 64) % 64 := by
  obtain ⟨i, hi52, hibit⟩ := hz
  have hstart : r % 64 < 64 := Nat.mod_lt _ (by norm_num)
  have hmdlt : mask ||| DUMMY_USED_MASK < 2 ^ 64 := Nat.or_lt_two_pow hm dummy_lt
  have hmdbit : (mask ||| DUMMY_USED_MASK).testBit i = false := by
    rw [Nat.testBit_lor, hibit, dummy_testBit_low i hi52]
    rfl
  have hj : (rotr64 (mask ||| DUMMY_USED_MASK) (r % 64)).testBit
      ((i + (64 - r % 64)) % 64) = false := by
    rw [rotr64_testBit _ _ _ hmdlt hstart (Nat.mod_lt _ (by norm_num))]
    have heq : ((i + (64 - r % 64)) % 64 + r % 64) % 64 = i := by
      rw [Nat.mod_add_mod]
      have h1 : i + (64 - r % 64) + r % 64 = i + 64 := by omega
      rw [h1, Nat.add_mod_right, Nat.mod_eq_of_lt (by omega)]
    rw [heq]
    exact hmdbit
  have hlz : leastZeroBit (rotr64 (mask ||| DUMMY_USED_MASK) (r % 64)) < 64 :=
    Nat.lt_of_le_of_lt (leastZeroBit_le hj) (Nat.mod_lt _ (by norm_num))
  have hfz := firstZeroBitIndex_eq_leastZeroBit _ hlz
  have hposlt : firstZeroBitIndex (rotr64 (mask ||| DUMMY_USED_MASK) (r % 64)) < 64 := by
    rw [hfz]; exact hlz
  have hposbit : (rotr64 (mask ||| DUMMY_USED_MASK) (r % 64)).testBit
      (firstZeroBitIndex (rotr64 (mask ||| DUMMY_USED_MASK) (r % 64))) = false := by
    rw [hfz]; exact leastZeroBit_testBit _
  have hmdcard : (mask ||| DUMMY_USED_MASK).testBit
      ((firstZeroBitIndex (rotr64 (mask ||| DUMMY_USED_MASK) (r % 64)) + r % 64) % 64)
      = false := by
    rw [rotr64_testBit _ _ _ hmdlt hstart hposlt] at hposbit
    exact hposbit
  have hlt256 : firstZeroBitIndex (rotr64 (mask ||| DUMMY_USED_MASK) (r % 64)) + r % 64
      < 2 ^ 8 := by
    calc firstZeroBitIndex (rotr64 (mask ||| DUMMY_USED_MASK) (r % 64)) + r % 64
        < 128 := by omega
      _ ≤ 2 ^ 8 := by norm_num
  have hcarddef : (drawUniqueCard mask r).1 =
      (firstZeroBitIndex (rotr64 (mask ||| DUMMY_USED_MASK) (r % 64)) + r % 64) % 64 := by
    show ((firstZeroBitIndex (rotr64 (mask ||| DUMMY_USED_MASK) (r % 64)) + r % 64) % 2 ^ 8)
        &&& 63 = _
    rw [Nat.mod_eq_of_lt hlt256, land63_eq_mod]
  have hcardlt64 : (drawUniqueCard mask r).1 < 64 := by
    rw [hcarddef]
    exact Nat.mod_lt _ (by norm_num)
  have hcard52 : (drawUniqueCard mask r).1 < 52 := by
    rw [hcarddef]
    by_contra hge
    have hhigh := dummy_testBit_high _ (Nat.mod_lt _ (by norm_num) :
      (firstZeroBitIndex (rotr64 (mask ||| DUMMY_USED_MASK) (r % 64)) + r % 64) % 64 < 64)
      (by omega)
    rw [Nat.testBit_lor, hhigh, Bool.or_true] at hmdcard
    exact Bool.noConfusion hmdcard
  have hmaskbit : mask.testBit (drawUniqueCard mask r).1 = false := by
    rw [hcarddef]
    rw [Nat.testBit_lor, Bool.or_eq_false_iff] at hmdcard
    exact hmdcard.1
  refine ⟨hcard52, hmaskbit, ?_, hcarddef⟩
  show mask ||| (1 <<< ((drawUniqueCard mask r).1 % 64)) % 2 ^ 64
      = mask ||| 2 ^ (drawUniqueCard mask r).1
  rw [Nat.mod_eq_of_lt hcardlt64, Nat.one_shiftLeft,
    Nat.mod_eq_of_lt (Nat.lt_of_lt_of_le
      (Nat.pow_lt_pow_right (by norm_num) hcardlt64) (Nat.le_refl _))]

/-! ### Dealing: uniqueness of the dealt cards -/

theorem take_set_succ {α : Type} (l : List α) (i : Nat) (c : α) (h : i < l.length) :
    (l.set i c).take (i + 1) = l.take i ++ [c] := by
  rw [List.take_succ]
  congr 1
  · rw [List.set_take]
    apply List.set_eq_of_length_le
    simp
  · rw [List.getElem?_set_self h]
    rfl

theorem exists_free_slot (cards : List Nat) (h : cards.length < 52) :
    ∃ i, i < 52 ∧ i ∉ cards := by
  by_contra hc
  push_neg at hc
  have hsub : Finset.range 52 ⊆ cards.toFinset := by
    intro x hx
    rw [Finset.mem_range] at hx
    rw [List.mem_toFinset]
    exact hc x hx
  have hcard := Finset.card_le_card hsub
  rw [Finset.card_range] at hcard
  have hle := List.toFinset_card_le cards
  omega

theorem testBit_false_of_not_mem {g : Game} (hinv : DealInv g) {i : Nat}
    (h : i ∉ dealtCards g) : g.usedMask.testBit i = false := by
  cases htb : g.usedMask.testBit i with
  | false => rfl
  | true => exact absurd ((hinv.2.2.2.2.2.2 i).1 htb) h

theorem dealtCards_length {g : Game} (hinv : DealInv g) :
    (dealtCards g).length = 2 * g.dealIndex := by
  obtain ⟨h0, h1, hle, -⟩ := hinv
  rw [dealtCards, List.length_append, List.length_take, List.length_take, h0, h1]
  omega

theorem dealStep_inv {g : Game} (r0 r1 : Nat) (hinv : DealInv g)
    (hlt : g.dealIndex < HAND_SIZE) : DealInv (dealStep g r0 r1) := by
  obtain ⟨hl0, hl1, hle, hmask, hball, hnodup, hbits⟩ := hinv
  have hlen := dealtCards_length ⟨hl0, hl1, hle, hmask, hball, hnodup, hbits⟩
  -- first draw
  obtain ⟨f0, hf052, hf0nm⟩ := exists_free_slot (dealtCards g) (by
    rw [hlen]; simp [HAND_SIZE] at hle; omega)
  have hf0bit : g.usedMask.testBit f0 = false :=
    testBit_false_of_not_mem ⟨hl0, hl1, hle, hmask, hball, hnodup, hbits⟩ hf0nm
  obtain ⟨hc052, hc0bit, hu0eq, -⟩ :=
    drawUniqueCard_spec g.usedMask r0 hmask ⟨f0, hf052, hf0bit⟩
  have hu0lt : (drawUniqueCard g.usedMask r0).2 < 2 ^ 64 := by
    rw [hu0eq]
    exact Nat.or_lt_two_pow hmask (Nat.pow_lt_pow_right (by norm_num) (by omega))
  have hu0bits : ∀ i, (drawUniqueCard g.usedMask r0).2.testBit i = true ↔
      (i ∈ dealtCards g ∨ i = (drawUniqueCard g.usedMask r0).1) := by
    intro i
    rw [hu0eq, Nat.testBit_lor, Nat.testBit_two_pow, Bool.or_eq_true, decide_eq_true_iff,
      hbits i]
    constructor
    · rintro (hx | hx)
      · exact Or.inl hx
      · exact Or.inr hx.symm
    · rintro (hx | hx)
      · exact Or.inl hx
      · exact Or.inr hx.symm
  -- second draw
  obtain ⟨f1, hf152, hf1nm⟩ :=
    exists_free_slot (dealtCards g ++ [(drawUniqueCard g.usedMask r0).1]) (by
      rw [List.length_append, hlen, List.length_singleton]
      simp [HAND_SIZE] at hle; omega)
  have hf1bit : (drawUniqueCard g.usedMask r0).2.testBit f1 = false := by
    cases htb : (drawUniqueCard g.usedMask r0).2.testBit f1 with
    | false => rfl
    | true =>
      rcases (hu0bits f1).1 htb with hx | hx
      · exact absurd (List.mem_append.2 (Or.inl hx)) hf1nm
      · exact absurd (List.mem_append.2 (Or.inr (by simp [hx]))) hf1nm
  obtain ⟨hc152, hc1bit, hu1eq, -⟩ :=
    drawUniqueCard_spec (drawUniqueCard g.usedMask r0).2 r1 hu0lt ⟨f1, hf152, hf1bit⟩
  -- facts about the two new cards
  have hc0nm : (drawUniqueCard g.usedMask r0).1 ∉ dealtCards g := by
    intro hmem
    rw [(hbits _).2 hmem] at hc0bit
    exact Bool.noConfusion hc0bit
  have hc1nm : (drawUniqueCard (drawUniqueCard g.usedMask r0).2 r1).1 ∉ dealtCards g ∧
      (drawUniqueCard (drawUniqueCard g.usedMask r0).2 r1).1
        ≠ (drawUniqueCard g.usedMask r0).1 := by
    constructor
    · intro hmem
      rw [(hu0bits _).2 (Or.inl hmem)] at hc1bit
      exact Bool.noConfusion hc1bit
    · intro heq
      rw [(hu0bits _).2 (Or.inr heq)] at hc1bit
      exact Bool.noConfusion hc1bit
  -- shape of the new dealt-card list
  have hi0 : g.dealIndex < g.hand0.length := by rw [hl0]; exact hlt
  have hi1 : g.dealIndex < g.hand1.length := by rw [hl1]; exact hlt
  have hshape : dealtCards (dealStep g r0 r1) =
      (g.hand0.take g.dealIndex ++ [(drawUniqueCard g.usedMask r0).1]) ++
      (g.hand1.take g.dealIndex ++
        [(drawUniqueCard (drawUniqueCard g.usedMask r0).2 r1).1]) := by
    show (g.hand0.set g.dealIndex _).take (g.dealIndex + 1) ++
        (g.hand1.set g.dealIndex _).take (g.dealIndex + 1) = _
    rw [take_set_succ g.hand0 _ _ hi0, take_set_succ g.hand1 _ _ hi1]
  have hsplit : ∀ x, x ∈ dealtCards g ↔
      x ∈ g.hand0.take g.dealIndex ∨ x ∈ g.hand1.take g.dealIndex := by
    intro x
    rw [dealtCards, List.mem_append]
  have hA := List.Nodup.of_append_left (by rw [← dealtCards]; exact hnodup :
    (g.hand0.take g.dealIndex ++ g.hand1.take g.dealIndex).Nodup)
  have hB := List.Nodup.of_append_right (by rw [← dealtCards]; exact hnodup :
    (g.hand0.take g.dealIndex ++ g.hand1.take g.dealIndex).Nodup)
  have hAB := List.disjoint_of_nodup_append (by rw [← dealtCards]; exact hnodup :
    (g.hand0.take g.dealIndex ++ g.hand1.take g.dealIndex).Nodup)
  refine ⟨?_, ?_, ?_, ?_, ?_, ?_, ?_⟩
  · show (g.hand0.set g.dealIndex _).length = HAND_SIZE
    rw [List.length_set]; exact hl0
  · show (g.hand1.set g.dealIndex _).length = HAND_SIZE
    rw [List.length_set]; exact hl1
  · show g.dealIndex + 1 ≤ HAND_SIZE
    omega
  · show (drawUniqueCard (drawUniqueCard g.usedMask r0).2 r1).2 < 2 ^ 64
    rw [hu1eq]
    exact Nat.or_lt_two_pow hu0lt (Nat.pow_lt_pow_right (by norm_num) (by omega))
  · intro c hc
    rw [hshape] at hc
    rw [List.mem_append, List.mem_append, List.mem_append,
      List.mem_singleton, List.mem_singleton] at hc
    rcases hc with (hc | hc) | (hc | hc)
    · exact hball c ((hsplit c).2 (Or.inl hc))
    · rw [hc]; exact hc052
    · exact hball c ((hsplit c).2 (Or.inr hc))
    · rw [hc]; exact hc152
  · rw [hshape]
    refine List.Nodup.append (List.Nodup.append hA (List.nodup_singleton _) ?_)
      (List.Nodup.append hB (List.nodup_singleton _) ?_) ?_
    · intro a ha hmem
      rw [List.mem_singleton] at hmem
      rw [hmem] at ha
      exact hc0nm ((hsplit _).2 (Or.inl ha))
    · intro a ha hmem
      rw [List.mem_singleton] at hmem
      rw [hmem] at ha
      exact hc1nm.1 ((hsplit _).2 (Or.inr ha))
    · intro a ha hb
      rw [List.mem_append, List.mem_singleton] at ha hb
      rcases ha with ha | ha
      · rcases hb with hb | hb
        · exact hAB ha hb
        · rw [hb] at ha
          exact hc1nm.1 ((hsplit _).2 (Or.inl ha))
      · rcases hb with hb | hb
        · rw [ha] at hb
          exact hc0nm ((hsplit _).2 (Or.inr hb))
        · rw [ha] at hb
          exact hc1nm.2 hb.symm
  · intro i
    show (drawUniqueCard (drawUniqueCard g.usedMask r0).2 r1).2.testBit i = true ↔ _
    rw [hu1eq, Nat.testBit_lor, Nat.testBit_two_pow, Bool.or_eq_true, decide_eq_true_iff,
      hu0bits i, hshape]
    rw [List.mem_append, List.mem_append, List.mem_append,
      List.mem_singleton, List.mem_singleton]
    constructor
    · rintro ((hx | hx) | hx)
      · rcases (hsplit i).1 hx with h | h
        · exact Or.inl (Or.inl h)
        · exact Or.inr (Or.inl h)
      · exact Or.inl (Or.inr hx)
      · exact Or.inr (Or.inr hx.symm)
    · rintro ((hx | hx) | (hx | hx))
      · exact Or.inl (Or.inl ((hsplit i).2 (Or.inl hx)))
      · exact Or.inl (Or.inr hx)
      · exact Or.inl (Or.inl ((hsplit i).2 (Or.inr hx)))
      · exact Or.inr hx.symm

theorem dealRound_ok {sender gameId r0 r1 : Nat} {st st' : CBState}
    (h : dealRound sender gameId r0 r1 st = .ok st') :
    (st.games gameId).started = true ∧
    (st.games gameId).finished = false ∧
    (st.games gameId).dealIndex < HAND_SIZE ∧
    st'.games gameId = dealStep (st.games gameId) r0 r1 ∧
    (∀ j, j ≠ gameId → st'.games j = st.games j) := by
  simp only [dealRound] at h
  split_ifs at h with h1 h2 h3 h4 h5
  cases h
  refine ⟨by simpa using h2, by simpa using h3, ?_, ?_, ?_⟩
  · simp only [HAND_SIZE] at h4 ⊢
    omega
  · simp [setGame]
  · intro j hj
    simp [setGame, hj]

theorem dealRounds_inv {sender gameId : Nat} (rs : List (Nat × Nat)) {st st' : CBState}
    (hinv : DealInv (st.games gameId))
    (h : dealRounds sender gameId rs st = .ok st') :
    DealInv (st'.games gameId) ∧
    (st'.games gameId).dealIndex = (st.games gameId).dealIndex + rs.length := by
  induction rs generalizing st with
  | nil =>
    unfold dealRounds at h
    cases h
    exact ⟨hinv, by simp⟩
  | cons r rest ih =>
    unfold dealRounds at h
    cases hstep : dealRound sender gameId r.1 r.2 st with
    | error e =>
      rw [hstep] at h
      exact Except.noConfusion h
    | ok st1 =>
      rw [hstep] at h
      obtain ⟨hst, hfin, hlt, heq, -⟩ := dealRound_ok hstep
      have hinv1 : DealInv (st1.games gameId) := by
        rw [heq]; exact dealStep_inv r.1 r.2 hinv hlt
      have hidx1 : (st1.games gameId).dealIndex = (st.games gameId).dealIndex + 1 := by
        rw [heq]; rfl
      obtain ⟨hfinal, hcount⟩ := ih hinv1 h
      refine ⟨hfinal, ?_⟩
      rw [hcount, hidx1, List.length_cons]
      omega

/-! ### Success characterizations of the state transitions -/

theorem joinGame_ok {sender gameId : Nat} {st st' : CBState}
    (h : joinGame sender gameId st = .ok st') :
    (st.games gameId).player0 ≠ 0 ∧ (st.games gameId).started = false ∧
    (st.games gameId).player1 = 0 ∧ (st.games gameId).player0 ≠ sender ∧
    st' = removeOpen (setGame st gameId
      { st.games gameId with player1 := sender }) gameId := by
  simp only [joinGame] at h
  split_ifs at h with h1 h2 h3 h4
  cases h
  exact ⟨h1, by simpa using h2, by simpa using h3, h4, rfl⟩

theorem startGame_ok {sender gameId : Nat} {st st' : CBState}
    (h : startGame sender gameId st = .ok st') :
    (st.games gameId).player0 ≠ 0 ∧ (st.games gameId).started = false ∧
    (st.games gameId).player1 ≠ 0 ∧
    st' = setGame st gameId
      { st.games gameId with started := true, dealIndex := 0, usedMask := 0 } := by
  simp only [startGame] at h
  split_ifs at h with h1 h2 h3 h4
  cases h
  exact ⟨h1, by simpa using h2, h3, rfl⟩

theorem playCard_ok {sender gameId handIndex : Nat} {st st' : CBState}
    (h : playCard sender gameId handIndex st = .ok st') :
    (st.games gameId).player0 ≠ 0 ∧ (st.games gameId).started = true ∧
    (st.games gameId).finished = false ∧ HAND_SIZE ≤ (st.games gameId).dealIndex ∧
    ((sender = (st.games gameId).player0 ∧ (st.games gameId).hasPlayed0 = false ∧
       st' = setGame st gameId (playResult0 (st.games gameId) handIndex)) ∨
     (sender ≠ (st.games gameId).player0 ∧ sender = (st.games gameId).player1 ∧
       (st.games gameId).hasPlayed1 = false ∧
       st' = setGame st gameId (playResult1 (st.games gameId) handIndex))) := by
  simp only [playCard] at h
  split_ifs at h with h1 h2 h3 h4 h5 h6 h7 h8 h9
  · cases h
    exact ⟨h1, by simpa using h2, by simpa using h3, Nat.not_lt.1 h4, Or.inl
      ⟨h7, by simpa using h8, rfl⟩⟩
  · cases h
    have hp1 : sender = (st.games gameId).player1 := by
      rcases not_and_or.mp h6 with hx | hx
      · exact absurd (not_not.mp hx) h7
      · exact not_not.mp hx
    exact ⟨h1, by simpa using h2, by simpa using h3, Nat.not_lt.1 h4, Or.inr
      ⟨h7, hp1, by simpa using h9, rfl⟩⟩

theorem removeOpen_games (st : CBState) (j : Nat) :
    (removeOpen st j).games = st.games := by
  simp only [removeOpen]
  split
  · rfl
  · rfl

theorem removeOpen_not_mem (st : CBState) (j : Nat) (hoc : openConsistentAt st j) :
    j ∉ (removeOpen st j).openGameIds := by
  obtain ⟨hnd, hzero, hsome⟩ := hoc
  by_cases h0 : st.openIndexPlusOne j = 0
  · simp only [removeOpen, if_pos h0]
    exact hzero h0
  · obtain ⟨hlt, hget⟩ := hsome h0
    rw [List.getD_eq_getElem _ _ hlt] at hget
    have hlen0 : st.openGameIds.length - 1 < st.openGameIds.length := by omega
    by_cases hne : st.openIndexPlusOne j - 1 ≠ st.openGameIds.length - 1
    · simp only [removeOpen, if_neg h0, if_pos hne]
      show j ∉ (st.openGameIds.set (st.openIndexPlusOne j - 1)
        (st.openGameIds.getD (st.openGameIds.length - 1) 0)).dropLast
      intro hmem
      obtain ⟨k, hk, hv⟩ := List.mem_iff_getElem.1 hmem
      rw [List.getElem_dropLast, List.getElem_set] at hv
      have hkl : k < st.openGameIds.length - 1 := by
        simpa [List.length_dropLast, List.length_set] using hk
      split_ifs at hv with hik
      · rw [List.getD_eq_getElem _ _ hlen0] at hv
        have heq : st.openGameIds.length - 1 = st.openIndexPlusOne j - 1 :=
          hnd.getElem_inj_iff.1 (by rw [hv, hget])
        omega
      · have heq : k = st.openIndexPlusOne j - 1 :=
          hnd.getElem_inj_iff.1 (by rw [hv, hget])
        omega
    · simp only [removeOpen, if_neg h0, if_neg hne]
      show j ∉ st.openGameIds.dropLast
      intro hmem
      obtain ⟨k, hk, hv⟩ := List.mem_iff_getElem.1 hmem
      rw [List.getElem_dropLast] at hv
      have hkl : k < st.openGameIds.length - 1 := by
        simpa [List.length_dropLast] using hk
      have heq : k = st.openIndexPlusOne j - 1 :=
        hnd.getElem_inj_iff.1 (by rw [hv, hget])
      omega

theorem playCard_finished_error (st : CBState) (gameId : Nat)
    (hp : (st.games gameId).player0 ≠ 0)
    (hs : (st.games gameId).started = true)
    (hf : (st.games gameId).finished = true) (s2 h2 : Nat) :
    playCard s2 gameId h2 st = .error Err.GameAlreadyFinished := by
  simp only [playCard]
  rw [if_neg hp, if_neg (by simp [hs]), if_pos hf]

theorem playCard_repeat0_error (st : CBState) (gameId sender h2 : Nat)
    (hp : (st.games gameId).player0 ≠ 0)
    (hs : (st.games gameId).started = true)
    (hf : (st.games gameId).finished = false)
    (hd : HAND_SIZE ≤ (st.games gameId).dealIndex)
    (hplayed : (st.games gameId).hasPlayed0 = true)
    (hsend : sender = (st.games gameId).player0) (hh2 : h2 < HAND_SIZE) :
    playCard sender gameId h2 st = .error Err.AlreadyPlayed := by
  simp only [playCard]
  rw [if_neg hp, if_neg (by simp [hs]), if_neg (by simp [hf]),
    if_neg (Nat.not_lt.2 hd), if_neg (Nat.not_le.2 hh2),
    if_neg (fun hc => hc.1 hsend), if_pos hsend, if_pos hplayed]

theorem playCard_repeat1_error (st : CBState) (gameId sender h2 : Nat)
    (hp : (st.games gameId).player0 ≠ 0)
    (hs : (st.games gameId).started = true)
    (hf : (st.games gameId).finished = false)
    (hd : HAND_SIZE ≤ (st.games gameId).dealIndex)
    (hplayed : (st.games gameId).hasPlayed1 = true)
    (hsend0 : sender ≠ (st.games gameId).player0)
    (hsend1 : sender = (st.games gameId).player1) (hh2 : h2 < HAND_SIZE) :
    playCard sender gameId h2 st = .error Err.AlreadyPlayed := by
  simp only [playCard]
  rw [if_neg hp, if_neg (by simp [hs]), if_neg (by simp [hf]),
    if_neg (Nat.not_lt.2 hd), if_neg (Nat.not_le.2 hh2),
    if_neg (fun hc => hc.2 hsend1), if_neg hsend0, if_pos hplayed]

/-! ### Claim theorems -/

/-- C1: for every pair of distinct card values `a, b` in `0..51` stored at the
played hand slots, the encrypted boolean computed at showdown by `_finishGame`
equals the plaintext rule `rank(a) > rank(b) OR (rank(a) = rank(b) AND
suit(a) > suit(b))` with `rank = card mod 13`, `suit = card div 13`. -/
theorem claim_C1_comparator (g : Game) (a b : Nat)
    (ha : g.hand0.getD g.playedIndex0 0 = a) (hb : g.hand1.getD g.playedIndex1 0 = b)
    (ha52 : a < 52) (hb52 : b < 52) (hab : a ≠ b) :
    (finishGame g).p0Wins = some (specPlainRule a b) := by
  have hrule : ∀ x, x < 52 → ∀ y, y < 52 → x ≠ y → p0WinsRule x y = specPlainRule x y := by
    decide
  show some (p0WinsRule (g.hand0.getD g.playedIndex0 0) (g.hand1.getD g.playedIndex1 0)) = _
  rw [ha, hb, hrule a ha52 b hb52 hab]

theorem claim_C1_comparator_witness :
    (finishGame gW).p0Wins = some (specPlainRule 5 3) :=
  claim_C1_comparator gW 5 3 rfl rfl (by decide) (by decide) (by decide)

/-- C2: in a session whose game starts with an all-zero used-mask, zero
`dealIndex` and `HAND_SIZE`-element hands, any sequence of successful
`dealRound` calls has length at most `HAND_SIZE`, advances `dealIndex` to
that length `k`, and the `2k` card values dealt so far (`k` per hand) are
pairwise distinct and all in `0..51` — in particular the two fully dealt
hands are disjoint. -/
theorem claim_C2_deal_uniqueness (sender gameId : Nat) (rs : List (Nat × Nat))
    (st st' : CBState)
    (hmask : (st.games gameId).usedMask = 0)
    (hidx : (st.games gameId).dealIndex = 0)
    (hl0 : (st.games gameId).hand0.length = HAND_SIZE)
    (hl1 : (st.games gameId).hand1.length = HAND_SIZE)
    (h : dealRounds sender gameId rs st = .ok st') :
    rs.length ≤ HAND_SIZE ∧
    (st'.games gameId).dealIndex = rs.length ∧
    ((st'.games gameId).hand0.take rs.length ++
      (st'.games gameId).hand1.take rs.length).Nodup ∧
    (∀ c, c ∈ (st'.games gameId).hand0.take rs.length ++
              (st'.games gameId).hand1.take rs.length → c < 52) := by
  have hinv : DealInv (st.games gameId) := by
    refine ⟨hl0, hl1, by rw [hidx]; exact Nat.zero_le _, by rw [hmask]; norm_num,
      ?_, ?_, ?_⟩
    · intro c hc
      rw [dealtCards, hidx] at hc
      simp at hc
    · rw [dealtCards, hidx]
      simp
    · intro i
      rw [dealtCards, hidx, hmask]
      simp [Nat.zero_testBit]
  obtain ⟨hinv', hcount⟩ := dealRounds_inv rs hinv h
  have hk : (st'.games gameId).dealIndex = rs.length := by
    rw [hcount, hidx, Nat.zero_add]
  have hdc : dealtCards (st'.games gameId) =
      (st'.games gameId).hand0.take rs.length ++
      (st'.games gameId).hand1.take rs.length := by
    rw [dealtCards, hk]
  refine ⟨by rw [← hk]; exact hinv'.2.2.1, hk, ?_, ?_⟩
  · rw [← hdc]
    exact hinv'.2.2.2.2.2.1
  · rw [← hdc]
    exact hinv'.2.2.2.2.1

theorem claim_C2_deal_uniqueness_witness :
    rsW.length ≤ HAND_SIZE ∧
    (stW4.games 0).dealIndex = rsW.length ∧
    ((stW4.games 0).hand0.take rsW.length ++
      (stW4.games 0).hand1.take rsW.length).Nodup ∧
    (∀ c, c ∈ (stW4.games 0).hand0.take rsW.length ++
              (stW4.games 0).hand1.take rsW.length → c < 52) :=
  claim_C2_deal_uniqueness 1 0 rsW stW3 stW4 rfl rfl rfl rfl rfl

/-- C3: for every 64-bit used-mask with a zero bit among bits `0..51` and
every random start value in `0..63`, `_drawUniqueCard` returns the card index
`(zero-bit-position of the rotated mask + start) mod 64`; this index is below
52, its bit is zero in the input mask, and the returned mask is the input
mask OR-ed with 1 shifted left by the index. -/
theorem claim_C3_draw_unique_card (mask start : Nat) (hm : mask < 2 ^ 64)
    (hs : start < 64) (hz : ∃ i, i < 52 ∧ mask.testBit i = false) :
    (drawUniqueCard mask start).1 =
      (firstZeroBitIndex (rotr64 (mask ||| DUMMY_USED_MASK) start) + start) % 64 ∧
    (drawUniqueCard mask start).1 < 52 ∧
    mask.testBit (drawUniqueCard mask start).1 = false ∧
    (drawUniqueCard mask start).2 = mask ||| (1 <<< (drawUniqueCard mask start).1) := by
  obtain ⟨h52, hbit, heq, hcard⟩ := drawUniqueCard_spec mask start hm hz
  have hs64 : start % 64 = start := Nat.mod_eq_of_lt hs
  rw [hs64] at hcard
  refine ⟨hcard, h52, hbit, ?_⟩
  rw [heq, Nat.one_shiftLeft]

theorem claim_C3_draw_unique_card_witness :
    (drawUniqueCard 3 5).1 =
      (firstZeroBitIndex (rotr64 (3 ||| DUMMY_USED_MASK) 5) + 5) % 64 ∧
    (drawUniqueCard 3 5).1 < 52 ∧
    Nat.testBit 3 (drawUniqueCard 3 5).1 = false ∧
    (drawUniqueCard 3 5).2 = 3 ||| (1 <<< (drawUniqueCard 3 5).1) :=
  claim_C3_draw_unique_card 3 5 (by norm_num) (by norm_num)
    ⟨2, by norm_num, by decide⟩

/-- C10 as stated is false at the all-ones mask: `_firstZeroBitIndex` returns
63 there, not 64. -/
theorem claim_C10_counterexample :
    firstZeroBitIndex (2 ^ 64 - 1) = 63 ∧ (63 : Nat) ≠ 64 := by
  constructor
  · decide
  · decide

/-- C10 (amended): for every 64-bit mask with a zero bit among bits `0..63`,
`_firstZeroBitIndex` returns the 0-based position of the least-significant
zero bit, a value in `0..63`; for the all-ones mask it returns 63 — the
position of a set bit — so the draw algorithm's output bound relies on the
precondition that the mask with sentinels is never all ones. -/
theorem claim_C10_first_zero_bit (m : Nat) (h : ∃ i, i < 64 ∧ m.testBit i = false) :
    firstZeroBitIndex m < 64 ∧
    m.testBit (firstZeroBitIndex m) = false ∧
    (∀ j, j < firstZeroBitIndex m → m.testBit j = true) ∧
    firstZeroBitIndex (2 ^ 64 - 1) = 63 := by
  obtain ⟨i, hi, hbit⟩ := h
  have hle : leastZeroBit m ≤ i := leastZeroBit_le hbit
  have hlz : leastZeroBit m < 64 := by omega
  have heq := firstZeroBitIndex_eq_leastZeroBit m hlz
  rw [heq]
  exact ⟨hlz, leastZeroBit_testBit m, fun j hj => leastZeroBit_min m hj, by decide⟩

theorem claim_C10_first_zero_bit_witness :
    firstZeroBitIndex 6 < 64 ∧
    Nat.testBit 6 (firstZeroBitIndex 6) = false ∧
    (∀ j, j < firstZeroBitIndex 6 → Nat.testBit 6 j = true) ∧
    firstZeroBitIndex (2 ^ 64 - 1) = 63 :=
  claim_C10_first_zero_bit 6 ⟨0, by decide, by decide⟩

/-- C4 as stated is false: after both slots have played, the session is
finished, so a further play attempt fails with `GameAlreadyFinished` — the
contract never reaches the `AlreadyPlayed` check then.  Concretely, in the
state reached by create, join, start, six deals and both plays, a third play
attempt errors with `GameAlreadyFinished`, not `AlreadyPlayed`. -/
theorem claim_C4_counterexample :
    (stW6.games 0).hasPlayed0 = true ∧ (stW6.games 0).hasPlayed1 = true ∧
    playCard 1 0 2 stW6 = Except.error Err.GameAlreadyFinished ∧
    playCard 1 0 2 stW6 ≠ Except.error Err.AlreadyPlayed := by
  refine ⟨rfl, rfl, rfl, ?_⟩
  intro hc
  have h1 : playCard 1 0 2 stW6 = Except.error Err.GameAlreadyFinished := rfl
  rw [h1] at hc
  exact Err.noConfusion (Except.error.inj hc)

/-- C4 (amended): a successful play that makes both played slots present sets
the result and the `finished` flag in that same call, and any further play
attempt by either slot then fails — with `GameAlreadyFinished`; a successful
play that does not complete the pair leaves the session unfinished with the
result handle unchanged, and a repeat play attempt by that same slot (with a
valid hand index) before the other slot has played fails with
`AlreadyPlayed`. -/
theorem claim_C4_single_showdown (sender gameId handIndex : Nat) (st st' : CBState)
    (h : playCard sender gameId handIndex st = .ok st') :
    ((st'.games gameId).hasPlayed0 = true → (st'.games gameId).hasPlayed1 = true →
      (st'.games gameId).finished = true ∧
      (st'.games gameId).p0Wins.isSome = true ∧
      (∀ s2 h2, playCard s2 gameId h2 st' = .error Err.GameAlreadyFinished)) ∧
    (¬((st'.games gameId).hasPlayed0 = true ∧ (st'.games gameId).hasPlayed1 = true) →
      (st'.games gameId).finished = false ∧
      (st'.games gameId).p0Wins = (st.games gameId).p0Wins ∧
      (∀ h2, h2 < HAND_SIZE →
        playCard sender gameId h2 st' = .error Err.AlreadyPlayed)) := by
  obtain ⟨hp0, hs, hf, hd, hbranch⟩ := playCard_ok h
  rcases hbranch with ⟨hsend, hnp, hst⟩ | ⟨hsend, hp1, hnp, hst⟩
  · have hg : st'.games gameId = playResult0 (st.games gameId) handIndex := by
      rw [hst]
      simp [setGame]
    by_cases h1 : (st.games gameId).hasPlayed1 = true
    · have hgfin : st'.games gameId = finishGame
          { st.games gameId with hasPlayed0 := true, playedIndex0 := handIndex } := by
        rw [hg]
        simp [playResult0, h1]
      constructor
      · intro hA hB
        refine ⟨by rw [hgfin]; rfl, by rw [hgfin]; rfl, ?_⟩
        intro s2 h2
        apply playCard_finished_error
        · rw [hgfin]
          exact hp0
        · rw [hgfin]
          exact hs
        · rw [hgfin]
          rfl
      · intro hc
        exfalso
        apply hc
        refine ⟨by rw [hgfin]; rfl, ?_⟩
        rw [hgfin]
        exact h1
    · have h1f : (st.games gameId).hasPlayed1 = false := by simpa using h1
      have hgn : st'.games gameId =
          { st.games gameId with hasPlayed0 := true, playedIndex0 := handIndex } := by
        rw [hg]
        simp [playResult0, h1f]
      constructor
      · intro hA hB
        rw [hgn] at hB
        exact absurd hB h1
      · intro hc
        refine ⟨?_, ?_, ?_⟩
        · rw [hgn]
          exact hf
        · rw [hgn]
        · intro h2 hh2
          apply playCard_repeat0_error
          · rw [hgn]
            exact hp0
          · rw [hgn]
            exact hs
          · rw [hgn]
            exact hf
          · rw [hgn]
            exact hd
          · rw [hgn]
          · rw [hgn]
            exact hsend
          · exact hh2
  · have hg : st'.games gameId = playResult1 (st.games gameId) handIndex := by
      rw [hst]
      simp [setGame]
    by_cases h0 : (st.games gameId).hasPlayed0 = true
    · have hgfin : st'.games gameId = finishGame
          { st.games gameId with hasPlayed1 := true, playedIndex1 := handIndex } := by
        rw [hg]
        simp [playResult1, h0]
      constructor
      · intro hA hB
        refine ⟨by rw [hgfin]; rfl, by rw [hgfin]; rfl, ?_⟩
        intro s2 h2
        apply playCard_finished_error
        · rw [hgfin]
          exact hp0
        · rw [hgfin]
          exact hs
        · rw [hgfin]
          rfl
      · intro hc
        exfalso
        apply hc
        refine ⟨?_, by rw [hgfin]; rfl⟩
        rw [hgfin]
        exact h0
    · have h0f : (st.games gameId).hasPlayed0 = false := by simpa using h0
      have hgn : st'.games gameId =
          { st.games gameId with hasPlayed1 := true, playedIndex1 := handIndex } := by
        rw [hg]
        simp [playResult1, h0f]
      constructor
      · intro hA hB
        rw [hgn] at hA
        exact absurd hA h0
      · intro hc
        refine ⟨?_, ?_, ?_⟩
        · rw [hgn]
          exact hf
        · rw [hgn]
        · intro h2 hh2
          apply playCard_repeat1_error
          · rw [hgn]
            exact hp0
          · rw [hgn]
            exact hs
          · rw [hgn]
            exact hf
          · rw [hgn]
            exact hd
          · rw [hgn]
          · rw [hgn]
            exact hsend
          · rw [hgn]
            exact hp1
          · exact hh2

theorem claim_C4_single_showdown_witness :
    (stW6.games 0).finished = true ∧ (stW6.games 0).p0Wins.isSome = true ∧
    playCard 1 0 0 stW6 = Except.error Err.GameAlreadyFinished ∧
    playCard 1 0 0 stW5 = Except.error Err.AlreadyPlayed := by
  obtain ⟨hboth, -⟩ := claim_C4_single_showdown 2 0 1 stW5 stW6 rfl
  obtain ⟨hfin, hsome, hall⟩ := hboth rfl rfl
  obtain ⟨-, hnc⟩ := claim_C4_single_showdown 1 0 0 stW4 stW5 rfl
  obtain ⟨-, -, hrep⟩ := hnc (by decide)
  exact ⟨hfin, hsome, hall 1 0, hrep 0 (by decide)⟩

/-- C5: `joinGame` fails with `GameNotFound` when the session id is unknown
(slot 0 unassigned), `GameAlreadyStarted` when the session has started,
`GameFull` when slot 1 is occupied and `GameNotOpen` (the spec's `SelfJoin`)
when the caller is already slot 0; on success it sets slot 1 to the caller
and removes the id from the open index. -/
theorem claim_C5_join_errors (sender gameId : Nat) (st : CBState) :
    ((st.games gameId).player0 = 0 →
      joinGame sender gameId st = .error Err.GameNotFound) ∧
    ((st.games gameId).player0 ≠ 0 → (st.games gameId).started = true →
      joinGame sender gameId st = .error Err.GameAlreadyStarted) ∧
    ((st.games gameId).player0 ≠ 0 → (st.games gameId).started = false →
      (st.games gameId).player1 ≠ 0 →
      joinGame sender gameId st = .error Err.GameFull) ∧
    ((st.games gameId).player0 ≠ 0 → (st.games gameId).started = false →
      (st.games gameId).player1 = 0 → (st.games gameId).player0 = sender →
      joinGame sender gameId st = .error Err.GameNotOpen) ∧
    ((st.games gameId).player0 ≠ 0 → (st.games gameId).started = false →
      (st.games gameId).player1 = 0 → (st.games gameId).player0 ≠ sender →
      ∃ st', joinGame sender gameId st = .ok st' ∧
        (st'.games gameId).player1 = sender ∧
        (openConsistentAt st gameId → gameId ∉ st'.openGameIds)) := by
  refine ⟨?_, ?_, ?_, ?_, ?_⟩
  · intro h1
    simp [joinGame, h1]
  · intro h1 h2
    simp [joinGame, h1, h2]
  · intro h1 h2 h3
    simp [joinGame, h1, h2, h3]
  · intro h1 h2 h3 h4
    have h0 : sender ≠ 0 := by
      rw [← h4]
      exact h1
    simp [joinGame, h0, h2, h3, h4]
  · intro h1 h2 h3 h4
    refine ⟨removeOpen (setGame st gameId
      { st.games gameId with player1 := sender }) gameId, ?_, ?_, ?_⟩
    · simp [joinGame, h1, h2, h3, h4]
    · rw [removeOpen_games]
      simp [setGame]
    · intro hoc
      apply removeOpen_not_mem
      obtain ⟨ha, hb, hc⟩ := hoc
      exact ⟨ha, hb, hc⟩

theorem claim_C5_join_errors_witness :
    joinGame 1 0 stW1 = Except.error Err.GameNotOpen ∧
    joinGame 2 5 stW1 = Except.error Err.GameNotFound ∧
    joinGame 3 0 stW3 = Except.error Err.GameAlreadyStarted ∧
    joinGame 3 0 stW2 = Except.error Err.GameFull := by
  refine ⟨?_, ?_, ?_, ?_⟩
  · exact (claim_C5_join_errors 1 0 stW1).2.2.2.1 (by decide) (by decide)
      (by decide) (by decide)
  · exact (claim_C5_join_errors 2 5 stW1).1 (by decide)
  · exact (claim_C5_join_errors 3 0 stW3).2.1 (by decide) (by decide)
  · exact (claim_C5_join_errors 3 0 stW2).2.2.1 (by decide) (by decide) (by decide)

/-- C6: for every existing session, `getHand` for an address equal to neither
slot fails with `NotAPlayer` (the spec's `NotAParticipant`), and `getHand`
for a slot address returns that slot's stored hand. -/
theorem claim_C6_get_hand (gameId player : Nat) (st : CBState)
    (hex : (st.games gameId).player0 ≠ 0) :
    (player ≠ (st.games gameId).player0 → player ≠ (st.games gameId).player1 →
      getHand gameId player st = .error Err.NotAPlayer) ∧
    (player = (st.games gameId).player0 →
      getHand gameId player st = .ok (st.games gameId).hand0) ∧
    (player ≠ (st.games gameId).player0 → player = (st.games gameId).player1 →
      getHand gameId player st = .ok (st.games gameId).hand1) := by
  refine ⟨?_, ?_, ?_⟩
  · intro h1 h2
    simp [getHand, hex, h1, h2]
  · intro h1
    simp [getHand, hex, h1]
  · intro h1 h2
    have h3 : ¬((st.games gameId).player1 = (st.games gameId).player0) := by
      rw [← h2]
      exact h1
    simp [getHand, hex, h1, h2, h3]

theorem claim_C6_get_hand_witness :
    getHand 0 3 stW2 = Except.error Err.NotAPlayer ∧
    getHand 0 1 stW2 = Except.ok (stW2.games 0).hand0 ∧
    getHand 0 2 stW2 = Except.ok (stW2.games 0).hand1 := by
  refine ⟨?_, ?_, ?_⟩
  · exact (claim_C6_get_hand 0 3 stW2 (by decide)).1 (by decide) (by decide)
  · exact (claim_C6_get_hand 0 1 stW2 (by decide)).2.1 (by decide)
  · exact (claim_C6_get_hand 0 2 stW2 (by decide)).2.2 (by decide) (by decide)

theorem playResult0_proj (g : Game) (h : Nat) :
    (playResult0 g h).started = g.started ∧
    (playResult0 g h).dealIndex = g.dealIndex ∧
    (g.finished = true → (playResult0 g h).finished = true) := by
  simp only [playResult0]
  split
  · exact ⟨rfl, rfl, fun _ => rfl⟩
  · exact ⟨rfl, rfl, fun hx => hx⟩

theorem playResult1_proj (g : Game) (h : Nat) :
    (playResult1 g h).started = g.started ∧
    (playResult1 g h).dealIndex = g.dealIndex ∧
    (g.finished = true → (playResult1 g h).finished = true) := by
  simp only [playResult1]
  split
  · exact ⟨rfl, rfl, fun _ => rfl⟩
  · exact ⟨rfl, rfl, fun hx => hx⟩

/-- C7: a successful `dealRound` increments `dealIndex` by exactly one; no
operation (join, start under the reachable-state invariant that an unstarted
game has `dealIndex = 0`, play, create, deal) ever decreases any session's
`dealIndex`; and `dealRound` can no longer succeed once
`dealIndex = HAND_SIZE`. -/
theorem claim_C7_deal_index (sender gameId handIndex r0 r1 ts j : Nat)
    (st st' : CBState) :
    (dealRound sender gameId r0 r1 st = .ok st' →
      (st'.games gameId).dealIndex = (st.games gameId).dealIndex + 1) ∧
    (joinGame sender gameId st = .ok st' →
      (st'.games j).dealIndex = (st.games j).dealIndex) ∧
    (((st.games gameId).started = false → (st.games gameId).dealIndex = 0) →
      startGame sender gameId st = .ok st' →
      (st.games j).dealIndex ≤ (st'.games j).dealIndex) ∧
    (playCard sender gameId handIndex st = .ok st' →
      (st'.games j).dealIndex = (st.games j).dealIndex) ∧
    (((createGame sender ts st).2.games j).dealIndex = (st.games j).dealIndex) ∧
    (dealRound sender gameId r0 r1 st = .ok st' →
      (st.games j).dealIndex ≤ (st'.games j).dealIndex) ∧
    ((st.games gameId).dealIndex = HAND_SIZE →
      ∀ st2, dealRound sender gameId r0 r1 st ≠ .ok st2) := by
  refine ⟨?_, ?_, ?_, ?_, ?_, ?_, ?_⟩
  · intro h
    obtain ⟨-, -, -, heq, -⟩ := dealRound_ok h
    rw [heq]
    rfl
  · intro h
    obtain ⟨-, -, -, -, hst⟩ := joinGame_ok h
    subst hst
    rw [removeOpen_games]
    by_cases hj : j = gameId
    · subst hj
      simp [setGame]
    · simp [setGame, hj]
  · intro hinv h
    obtain ⟨-, hstarted, -, hst⟩ := startGame_ok h
    subst hst
    by_cases hj : j = gameId
    · subst hj
      rw [hinv hstarted]
      exact Nat.zero_le _
    · simp [setGame, hj]
  · intro h
    obtain ⟨-, -, -, -, hbr⟩ := playCard_ok h
    rcases hbr with ⟨-, -, hst⟩ | ⟨-, -, -, hst⟩ <;> subst hst
    · by_cases hj : j = gameId
      · subst hj
        simp only [setGame, if_pos rfl]
        exact (playResult0_proj (st.games j) handIndex).2.1
      · simp [setGame, hj]
    · by_cases hj : j = gameId
      · subst hj
        simp only [setGame, if_pos rfl]
        exact (playResult1_proj (st.games j) handIndex).2.1
      · simp [setGame, hj]
  · by_cases hj : j = st.nextGameId
    · subst hj
      simp [createGame, pushOpen, setGame]
    · simp [createGame, pushOpen, setGame, hj]
  · intro h
    obtain ⟨-, -, -, heq, hother⟩ := dealRound_ok h
    by_cases hj : j = gameId
    · subst hj
      rw [heq]
      show (st.games j).dealIndex ≤ (st.games j).dealIndex + 1
      omega
    · rw [hother j hj]
  · intro hidx st2 hok
    obtain ⟨-, -, hlt, -, -⟩ := dealRound_ok hok
    rw [hidx] at hlt
    exact absurd hlt (Nat.lt_irrefl _)

theorem claim_C7_deal_index_witness :
    (stD1.games 0).dealIndex = (stW3.games 0).dealIndex + 1 ∧
    (∀ st2, dealRound 1 0 0 0 stW4 ≠ Except.ok st2) := by
  refine ⟨?_, ?_⟩
  · exact (claim_C7_deal_index 1 0 0 0 0 0 0 stW3 stD1).1 rfl
  · exact (claim_C7_deal_index 1 0 0 0 0 0 0 stW4 stW4).2.2.2.2.2.2 rfl

/-- C8: the `started` and `finished` flags are monotone — no operation resets
either from true to false — and once a session is finished (hence started, in
any reachable state) every mutating operation on it reverts, leaving the
state unchanged (a revert carries no state in the `Except` model). -/
theorem claim_C8_flag_monotone (sender gameId handIndex r0 r1 ts j : Nat)
    (st st' : CBState) :
    (joinGame sender gameId st = .ok st' →
      ((st.games j).started = true → (st'.games j).started = true) ∧
      ((st.games j).finished = true → (st'.games j).finished = true)) ∧
    (startGame sender gameId st = .ok st' →
      ((st.games j).started = true → (st'.games j).started = true) ∧
      ((st.games j).finished = true → (st'.games j).finished = true)) ∧
    (dealRound sender gameId r0 r1 st = .ok st' →
      ((st.games j).started = true → (st'.games j).started = true) ∧
      ((st.games j).finished = true → (st'.games j).finished = true)) ∧
    (playCard sender gameId handIndex st = .ok st' →
      ((st.games j).started = true → (st'.games j).started = true) ∧
      ((st.games j).finished = true → (st'.games j).finished = true)) ∧
    (((st.games j).started = true →
        ((createGame sender ts st).2.games j).started = true) ∧
     ((st.games j).finished = true →
        ((createGame sender ts st).2.games j).finished = true)) ∧
    ((st.games gameId).finished = true → (st.games gameId).started = true →
      (∀ st2, joinGame sender gameId st ≠ .ok st2) ∧
      (∀ st2, startGame sender gameId st ≠ .ok st2) ∧
      (∀ st2, dealRound sender gameId r0 r1 st ≠ .ok st2) ∧
      (∀ st2, playCard sender gameId handIndex st ≠ .ok st2)) := by
  refine ⟨?_, ?_, ?_, ?_, ?_, ?_⟩
  · intro h
    obtain ⟨-, -, -, -, hst⟩ := joinGame_ok h
    subst hst
    rw [removeOpen_games]
    by_cases hj : j = gameId
    · subst hj
      constructor <;> intro hx <;> simpa [setGame] using hx
    · constructor <;> intro hx <;> simpa [setGame, hj] using hx
  · intro h
    obtain ⟨-, -, -, hst⟩ := startGame_ok h
    subst hst
    by_cases hj : j = gameId
    · subst hj
      constructor
      · intro hx
        simp [setGame]
      · intro hx
        simpa [setGame] using hx
    · constructor <;> intro hx <;> simpa [setGame, hj] using hx
  · intro h
    obtain ⟨-, -, -, heq, hother⟩ := dealRound_ok h
    by_cases hj : j = gameId
    · subst hj
      rw [heq]
      exact ⟨fun hx => hx, fun hx => hx⟩
    · rw [hother j hj]
      exact ⟨fun hx => hx, fun hx => hx⟩
  · intro h
    obtain ⟨-, -, -, -, hbr⟩ := playCard_ok h
    rcases hbr with ⟨-, -, hst⟩ | ⟨-, -, -, hst⟩ <;> subst hst
    · by_cases hj : j = gameId
      · subst hj
        constructor
        · intro hx
          have hgoal : (playResult0 (st.games j) handIndex).started = true := by
            rw [(playResult0_proj (st.games j) handIndex).1]
            exact hx
          simpa [setGame] using hgoal
        · intro hx
          simpa [setGame] using (playResult0_proj (st.games j) handIndex).2.2 hx
      · simp only [setGame, if_neg hj]
        exact ⟨fun hx => hx, fun hx => hx⟩
    · by_cases hj : j = gameId
      · subst hj
        constructor
        · intro hx
          have hgoal : (playResult1 (st.games j) handIndex).started = true := by
            rw [(playResult1_proj (st.games j) handIndex).1]
            exact hx
          simpa [setGame] using hgoal
        · intro hx
          simpa [setGame] using (playResult1_proj (st.games j) handIndex).2.2 hx
      · simp only [setGame, if_neg hj]
        exact ⟨fun hx => hx, fun hx => hx⟩
  · by_cases hj : j = st.nextGameId
    · subst hj
      constructor <;> intro hx <;> simpa [createGame, pushOpen, setGame] using hx
    · constructor <;> intro hx <;> simpa [createGame, pushOpen, setGame, hj] using hx
  · intro hfin hstart
    refine ⟨?_, ?_, ?_, ?_⟩ <;> intro st2 hok
    · have hs := (joinGame_ok hok).2.1
      rw [hstart] at hs
      exact Bool.noConfusion hs
    · have hs := (startGame_ok hok).2.1
      rw [hstart] at hs
      exact Bool.noConfusion hs
    · have hs := (dealRound_ok hok).2.1
      rw [hfin] at hs
      exact Bool.noConfusion hs
    · have hs := (playCard_ok hok).2.2.1
      rw [hfin] at hs
      exact Bool.noConfusion hs

theorem claim_C8_flag_monotone_witness :
    (stD1.games 0).started = true ∧
    (∀ st2, playCard 1 0 0 stW6 ≠ Except.ok st2) ∧
    (∀ st2, dealRound 1 0 0 0 stW6 ≠ Except.ok st2) := by
  refine ⟨?_, ?_, ?_⟩
  · exact ((claim_C8_flag_monotone 1 0 0 0 0 0 0 stW3 stD1).2.2.1 rfl).1 rfl
  · exact ((claim_C8_flag_monotone 1 0 0 0 0 0 0 stW6 stW6).2.2.2.2.2 rfl rfl).2.2.2
  · exact ((claim_C8_flag_monotone 1 0 0 0 0 0 0 stW6 stW6).2.2.2.2.2 rfl rfl).2.2.1

/-- C9: after `createGame` the new id is in the open list; after a successful
`joinGame` the id is absent from the open list (given a consistent open
index); and `_removeOpen` of an id that is not in the open index is a no-op,
not an error. -/
theorem claim_C9_open_index (sender ts gameId : Nat) (st st' : CBState) :
    ((createGame sender ts st).1 ∈ (createGame sender ts st).2.openGameIds) ∧
    (openConsistentAt st gameId → joinGame sender gameId st = .ok st' →
      gameId ∉ st'.openGameIds) ∧
    (st.openIndexPlusOne gameId = 0 → removeOpen st gameId = st) ∧
    (openConsistentAt st gameId → gameId ∉ st.openGameIds →
      removeOpen st gameId = st) := by
  refine ⟨?_, ?_, ?_, ?_⟩
  · simp [createGame, pushOpen, setGame]
  · intro hoc h
    obtain ⟨-, -, -, -, hst⟩ := joinGame_ok h
    subst hst
    apply removeOpen_not_mem
    exact ⟨hoc.1, hoc.2.1, hoc.2.2⟩
  · intro h0
    simp [removeOpen, h0]
  · intro hoc hnm
    obtain ⟨hnd, hzero, hsome⟩ := hoc
    by_cases h0 : st.openIndexPlusOne gameId = 0
    · simp [removeOpen, h0]
    · exfalso
      obtain ⟨hlt, hget⟩ := hsome h0
      rw [List.getD_eq_getElem _ _ hlt] at hget
      apply hnm
      rw [← hget]
      exact List.getElem_mem hlt

theorem claim_C9_open_index_witness :
    ((createGame 3 7 stW0).1 ∈ (createGame 3 7 stW0).2.openGameIds) ∧
    (0 ∉ stW2.openGameIds) ∧
    removeOpen stW1 5 = stW1 := by
  refine ⟨?_, ?_, ?_⟩
  · exact (claim_C9_open_index 3 7 0 stW0 stW0).1
  · exact (claim_C9_open_index 2 0 0 stW1 stW2).2.1
      ⟨by decide, fun h => absurd h (by decide), fun h => ⟨by decide, by decide⟩⟩ rfl
  · exact (claim_C9_open_index 1 7 5 stW1 stW1).2.2.1 (by decide)

end CloakBet
